import Mathlib

/-!
Verification of the Voice2Voice pipeline (a voice-to-voice translation demo).

The Python sources are shallowly embedded: pure fragments become Lean
functions; calls into pretrained models, audio devices and the file system
become oracle parameters (functions supplied as arguments); side effects
(file writes, model invocations, executed phases) are returned as explicit
traces.  Machine floats only occur in data that the verified control flow
never inspects, so samples and filter coefficients are modelled as rationals.
-/

/- ────────────────────────────────────────────────────────────────
   Python string primitives used by utils/language.py and friends
   ──────────────────────────────────────────────────────────────── -/

/-- Python whitespace characters relevant to str.strip (ASCII subset). -/
def pyIsSpace (c : Char) : Bool :=
  c = ' ' || c = '\t' || c = '\n' || c = '\x0d' || c = '\x0b' || c = '\x0c'

/-- str.strip() on a character list: drop whitespace from both ends. -/
def pyStrip (s : List Char) : List Char :=
  ((s.dropWhile pyIsSpace).reverse.dropWhile pyIsSpace).reverse

/-- str.strip() on strings. -/
def pyStripS (s : String) : String :=
  String.mk (pyStrip s.toList)

/-- str.lower() (ASCII letters; the repository only feeds ASCII names). -/
def pyLower (s : List Char) : List Char :=
  s.map Char.toLower

/-- Does pat occur at the head of s? -/
def leadsWith : List Char → List Char → Bool
  | [], _ => true
  | _ :: _, [] => false
  | p :: ps, c :: cs => p = c && leadsWith ps cs

/-- str.replace(pat, ""): delete every non-overlapping occurrence of pat,
scanning left to right (Python semantics for replacement by the empty
string; pat is nonempty in all uses). -/
def stripSubFuel (pat : List Char) : Nat → List Char → List Char
  | 0, s => s
  | _ + 1, [] => []
  | fuel + 1, c :: rest =>
    if pat ≠ [] && leadsWith pat (c :: rest) then
      stripSubFuel pat fuel ((c :: rest).drop pat.length)
    else
      c :: stripSubFuel pat fuel rest

/-- str.replace(pat, "") with the fuel fixed to the input length, which
always suffices because every step consumes at least one character. -/
def stripSub (pat s : List Char) : List Char :=
  stripSubFuel pat s.length s

/-- Python string comparison: lexicographic by code point, shorter first. -/
def pyStrLt : List Char → List Char → Bool
  | [], [] => false
  | [], _ :: _ => true
  | _ :: _, [] => false
  | a :: as, b :: bs =>
    if a.toNat < b.toNat then true
    else if b.toNat < a.toNat then false
    else pyStrLt as bs

/-- Python string comparison, strictly greater. -/
def pyStrGt (a b : List Char) : Bool :=
  pyStrLt b a

/- ────────────────────────────────────────────────────────────────
   utils/language.py — the static tables
   ──────────────────────────────────────────────────────────────── -/

/-- INDIAN_LANG_MAP: ISO-ish code → human-readable name (insertion order). -/
def INDIAN_LANG_MAP : List (String × String) :=
  [("as", "Assamese"), ("bn", "Bengali"), ("brx", "Bodo"), ("doi", "Dogri"),
   ("gu", "Gujarati"), ("hi", "Hindi"), ("kn", "Kannada"), ("kok", "Konkani"),
   ("ks", "Kashmiri"), ("mai", "Maithili"), ("ml", "Malayalam"),
   ("mni", "Manipuri"), ("mr", "Marathi"), ("ne", "Nepali"), ("or", "Odia"),
   ("pa", "Punjabi"), ("sa", "Sanskrit"), ("sat", "Santali"), ("sd", "Sindhi"),
   ("ta", "Tamil"), ("te", "Telugu"), ("ur", "Urdu")]

/-- SUPPORTED_LANGUAGES: spoken name → language code (insertion order). -/
def SUPPORTED_LANGUAGES : List (String × String) :=
  [("english", "en"), ("hindi", "hi"), ("telugu", "te"), ("tamil", "ta"),
   ("german", "de"), ("french", "fr"), ("bengali", "bn"), ("marathi", "mr"),
   ("kannada", "kn"), ("malayalam", "ml"), ("japanese", "ja"),
   ("spanish", "es"), ("gujarati", "gu"), ("punjabi", "pa")]

/-- NLLB_LANG_CODE_MAP: language code → NLLB vocabulary string. -/
def NLLB_LANG_CODE_MAP : List (String × String) :=
  [("en", "eng_Latn"), ("hi", "hin_Deva"), ("te", "tel_Telu"),
   ("ta", "tam_Taml"), ("bn", "ben_Beng"), ("ml", "mal_Mlym"),
   ("kn", "kan_Knda"), ("mr", "mar_Deva"), ("gu", "guj_Gujr"),
   ("pa", "pan_Guru"), ("ur", "urd_Arab"), ("ne", "npi_Deva"),
   ("or", "ory_Orya"), ("as", "asm_Beng"), ("sd", "snd_Arab"),
   ("si", "sin_Sinh"), ("fr", "fra_Latn"), ("de", "deu_Latn"),
   ("es", "spa_Latn"), ("zh", "zho_Hans"), ("ja", "jpn_Jpan"),
   ("ko", "kor_Hang"), ("ru", "rus_Cyrl"), ("ar", "arb_Arab"),
   ("pt", "por_Latn"), ("it", "ita_Latn")]

/-- Membership of a code among the table keys (Python: `code in dict`). -/
def keyMem (tbl : List (String × String)) (c : String) : Bool :=
  (tbl.map Prod.fst).contains c

/-- dict.get(key, default). -/
def lookupD (tbl : List (String × String)) (c : String) (dflt : String) : String :=
  (tbl.lookup c).getD dflt

/- ────────────────────────────────────────────────────────────────
   difflib.SequenceMatcher / get_close_matches (no junk, short strings)
   ──────────────────────────────────────────────────────────────── -/

/-- Length of the common run of two lists starting at their heads. -/
def commonRun : List Char → List Char → Nat
  | a :: as, b :: bs => if a = b then commonRun as bs + 1 else 0
  | _, _ => 0

/-- find_longest_match over full sequences: the longest matching block
(i, j, size); among maximal blocks the one starting earliest in a, then
earliest in b (the difflib documented tie-break; no junk, no autojunk since
all inputs are far below 200 characters). -/
def bestBlock (a b : List Char) : Nat × Nat × Nat :=
  let cands :=
    (List.range (a.length)).flatMap (fun i =>
      (List.range (b.length)).map (fun j =>
        (i, j, commonRun (a.drop i) (b.drop j))))
  cands.foldl (fun best c => if best.2.2 < c.2.2 then c else best) (0, 0, 0)

/-- Total size of all matching blocks (the M of SequenceMatcher.ratio):
recursively split around the longest match, as get_matching_blocks does.
Fuel bounds recursion depth; a.length + b.length + 1 always suffices. -/
def matchTotal : Nat → List Char → List Char → Nat
  | 0, _, _ => 0
  | fuel + 1, a, b =>
    let ijk := bestBlock a b
    let i := ijk.1
    let j := ijk.2.1
    let k := ijk.2.2
    if k = 0 then 0
    else
      matchTotal fuel (a.take i) (b.take j) + k +
        matchTotal fuel (a.drop (i + k)) (b.drop (j + k))

/-- SequenceMatcher(a, b).ratio() as an exact fraction (numerator 2 M,
denominator len a + len b; the 0/0 case is 1.0 per _calculate_ratio). -/
def ratioPair (a b : List Char) : Nat × Nat :=
  let t := a.length + b.length
  if t = 0 then (1, 1)
  else (2 * matchTotal (t + 1) a b, t)

/-- Exact comparison cutoff ≤ ratio for positive-denominator fractions. -/
def fracLe (c r : Nat × Nat) : Bool :=
  c.1 * r.2 ≤ r.1 * c.2

/-- Exact comparison p < q for positive-denominator fractions. -/
def fracLt (p q : Nat × Nat) : Bool :=
  p.1 * q.2 < q.1 * p.2

/-- Exact comparison p = q for positive-denominator fractions. -/
def fracEq (p q : Nat × Nat) : Bool :=
  p.1 * q.2 = q.1 * p.2

/-- heapq.nlargest(1, ...) over (score, string) pairs in Python tuple
order: keep the candidate with the larger ratio, breaking ratio ties
toward the lexicographically larger string. -/
def pickBest (word : List Char) : List (List Char) → Option (List Char) → Option (List Char)
  | [], best => best
  | x :: rest, best =>
    match best with
    | none => pickBest word rest (some x)
    | some b =>
      if fracLt (ratioPair b word) (ratioPair x word) ||
          (fracEq (ratioPair b word) (ratioPair x word) && pyStrGt x b) then
        pickBest word rest (some x)
      else
        pickBest word rest (some b)

/-- difflib.get_close_matches(word, poss, n = 1, cutoff): filter the
candidates whose ratio reaches the cutoff, then take the single largest.
(The real_quick_ratio/quick_ratio prefilters are upper bounds of ratio,
so the conjunction of the three cutoff tests equals the ratio test.) -/
def getCloseMatches1 (word : List Char) (poss : List (List Char)) (cutoff : Nat × Nat) : Option (List Char) :=
  pickBest word (poss.filter (fun x => fracLe cutoff (ratioPair x word))) none

/- ────────────────────────────────────────────────────────────────
   utils/language.py — normalization and matching
   ──────────────────────────────────────────────────────────────── -/

/-- normalize_language_input: lowercase, delete "language" then "lang",
strip surrounding whitespace. -/
def normalizeLanguageInput (s : String) : List Char :=
  pyStrip (stripSub "lang".toList (stripSub "language".toList (pyLower s.toList)))

/-- get_language_code: normalize, then get_close_matches against the
supported names with n = 1 and cutoff = 0.5; on a match return the
code of the matched name and the name, else (None, None). -/
def getLanguageCode (spokenInput : String) : Option String × Option String :=
  let normalized := normalizeLanguageInput spokenInput
  match getCloseMatches1 normalized (SUPPORTED_LANGUAGES.map (fun p => p.1.toList)) (1, 2) with
  | some nameChars =>
    let langName := String.mk nameChars
    (SUPPORTED_LANGUAGES.lookup langName, some langName)
  | none => (none, none)

/-- Python truthiness of the optional code string (`if code:`). -/
def truthyOpt : Option String → Bool
  | none => false
  | some s => s ≠ ""

/-- detect_target_language_manually: strip the typed input, match it;
on failure print suggestions and return (None, None). -/
def detectTargetLanguageManually (typed : String) : Option String × Option String :=
  let cn := getLanguageCode (pyStripS typed)
  if truthyOpt cn.1 then cn else (none, none)

/- ────────────────────────────────────────────────────────────────
   models/asr.py
   ──────────────────────────────────────────────────────────────── -/

/-- Which ASR engine produced the transcription. -/
inductive AsrEngine
  | indicConformer
  | whisperEngine
deriving DecidableEq, Repr

/-- detect_input_language_whisper, with the Whisper language-id output
supplied as an oracle: returns (code, interpreted name, is_indian). -/
def detectInputLanguageWhisper (detectedCode : String) : String × String × Bool :=
  (detectedCode,
   lookupD INDIAN_LANG_MAP detectedCode "International",
   keyMem INDIAN_LANG_MAP detectedCode)

/-- transcribe_audio: Whisper detects the language; Indian codes route to
IndicConformer (called with the detected code), everything else to
Whisper. Model outputs are oracles: indicModel maps the language code to
the IndicConformer transcription, whisperText is the Whisper decode. -/
def transcribeAudio (detectedCode : String) (indicModel : String → String) (whisperText : String) : String × AsrEngine :=
  let det := detectInputLanguageWhisper detectedCode
  if det.2.2 then (indicModel det.1, AsrEngine.indicConformer)
  else (whisperText, AsrEngine.whisperEngine)

/-- Loop of detect_target_language_by_voice: remaining attempts count down,
att counts recordings already performed; each iteration records once,
decodes (oracle spoken, already per attempt index), strips, matches; a
truthy code returns immediately, else the loop retries. The second
component of the result is the number of recordings performed. -/
def dtlbvLoop (spoken : Nat → String) : Nat → Nat → (Option String × Option String) × Nat
  | 0, att => ((none, none), att)
  | r + 1, att =>
    let cn := getLanguageCode (pyStripS (spoken att))
    if truthyOpt cn.1 then (cn, att + 1)
    else dtlbvLoop spoken r (att + 1)

/-- detect_target_language_by_voice with its default attempts = 2. -/
def detectTargetLanguageByVoice (spoken : Nat → String) (attempts : Nat) : (Option String × Option String) × Nat :=
  dtlbvLoop spoken attempts 0

/-- get_target_language: voice detection first (2 attempts); if the code
is falsy, fall back to manual typed input. Returns the selection, the
number of voice recordings, and whether the manual fallback ran. -/
def getTargetLanguage (spoken : Nat → String) (typed : String) : (Option String × Option String) × Nat × Bool :=
  let v := detectTargetLanguageByVoice spoken 2
  if truthyOpt v.1.1 then (v.1, v.2, false)
  else (detectTargetLanguageManually typed, v.2, true)

/- ────────────────────────────────────────────────────────────────
   models/translation.py
   ──────────────────────────────────────────────────────────────── -/

/-- NLLB_LANG_CODE_MAP.get(code, "eng_Latn") where the code may be None
(None is not a key, so it takes the default). -/
def nllbGet : Option String → String
  | none => "eng_Latn"
  | some c => lookupD NLLB_LANG_CODE_MAP c "eng_Latn"

/-- Result of translate_with_nllb: the returned value plus the trace of
calls made to the NLLB model as (text, src_lang, tgt_lang) triples. -/
structure TranslateResult where
  output : Option String
  calls : List (String × String × String)
deriving DecidableEq, Repr

/-- translate_with_nllb: skip empty/whitespace-only text without touching
the model; otherwise map both codes through NLLB_LANG_CODE_MAP with
default "eng_Latn" and call the model, catching any failure (modelled as
Except.error, which also covers a failing lazy pipeline load) and
returning None for it. Total by construction: it never propagates an
exception to the caller. -/
def translateWithNllb (model : String → String → String → Except String String)
    (text : Option String) (srcLangCode tgtLangCode : Option String) : TranslateResult :=
  match text with
  | none => { output := none, calls := [] }
  | some t =>
    if t = "" || pyStripS t = "" then { output := none, calls := [] }
    else
      let srcNllb := nllbGet srcLangCode
      let tgtNllb := nllbGet tgtLangCode
      match model t srcNllb tgtNllb with
      | Except.ok translated => { output := some translated, calls := [(t, srcNllb, tgtNllb)] }
      | Except.error _ => { output := none, calls := [(t, srcNllb, tgtNllb)] }

/- ────────────────────────────────────────────────────────────────
   models/tts.py — playback router (content irrelevant to the claims,
   modelled only as the action taken)
   ──────────────────────────────────────────────────────────────── -/

/-- Action performed by play_tts_output. -/
inductive TtsAction
  | skipped
  | indicParler
  | pyttsx
deriving DecidableEq, Repr

/-- play_tts_output: skip empty text, route "indian" to Indic-Parler and
everything else to pyttsx3 (which picks a voice by tgt_lang_code, a
detail below the level of these claims). -/
def playTtsOutput (text : Option String) (langType : String) (_tgtLangCode : Option String) : TtsAction :=
  match text with
  | none => TtsAction.skipped
  | some t =>
    if t = "" || pyStripS t = "" then TtsAction.skipped
    else if langType = "indian" then TtsAction.indicParler
    else TtsAction.pyttsx

/- ────────────────────────────────────────────────────────────────
   utils/audio.py — Butterworth bandpass and recording
   ──────────────────────────────────────────────────────────────── -/

/-- One output sample of the direct-form scipy.signal.lfilter difference
equation: a0 y[n] = sum b[i] x[n-i] - sum a[j] y[n-j] (j ≥ 1), with zero
initial conditions. Samples and coefficients are exact rationals. -/
def lfilterSample (b a x ys : List ℚ) (n : Nat) : ℚ :=
  let xv := fun i => if i ≤ n then x.getD (n - i) 0 else 0
  let yv := fun j => if 1 ≤ j ∧ j ≤ n then ys.getD (n - j) 0 else 0
  (((List.range b.length).map (fun i => b.getD i 0 * xv i)).sum
    - ((List.range a.length).map (fun j => if j = 0 then 0 else a.getD j 0 * yv j)).sum)
    / a.getD 0 0

/-- First n outputs of lfilter. -/
def lfilterAcc (b a x : List ℚ) : Nat → List ℚ
  | 0 => []
  | n + 1 =>
    let ys := lfilterAcc b a x n
    ys ++ [lfilterSample b a x ys n]

/-- scipy.signal.lfilter(b, a, x). -/
def lfilter (b a x : List ℚ) : List ℚ :=
  lfilterAcc b a x x.length

/-- butter_bandpass: normalize the cutoffs by the Nyquist frequency and
clamp them strictly inside (0, 1); the scipy butter design itself is an
external library call, supplied as the oracle design (order, low, high). -/
def butterBandpass (design : Nat → ℚ → ℚ → List ℚ × List ℚ)
    (lowcut highcut fs : ℚ) (order : Nat) : List ℚ × List ℚ :=
  let nyq := fs / 2
  let low := max (lowcut / nyq) (1 / 1000000)
  let high := min (highcut / nyq) (999 / 1000)
  design order low high

/-- bandpass_filter(data, lowcut, highcut, fs, order): design then filter. -/
def bandpassFilter (design : Nat → ℚ → ℚ → List ℚ × List ℚ)
    (data : List ℚ) (lowcut highcut fs : ℚ) (order : Nat) : List ℚ :=
  let ba := butterBandpass design lowcut highcut fs order
  lfilter ba.1 ba.2 data

/-- Effects of record_audio: every file write (name, samples), every
playback, and the returned value. -/
structure RecordEffects where
  writes : List (String × List ℚ)
  plays : List (List ℚ)
  ret : String
deriving DecidableEq, Repr

/-- record_audio: record (oracle recorded = the flattened samples), apply
bandpass_filter with its Python defaults lowcut 80.0, highcut 7900.0,
order 4 at the given rate, optionally play the filtered data, write the
filtered data to the file, return the filename. -/
def recordAudio (design : Nat → ℚ → ℚ → List ℚ × List ℚ)
    (recorded : List ℚ) (fs : ℚ) (filename : String) (playback : Bool) : RecordEffects :=
  let raw := recorded
  let filtered := bandpassFilter design raw 80 7900 fs 4
  { writes := [(filename, filtered)],
    plays := if playback then [filtered] else [],
    ret := filename }

/- ────────────────────────────────────────────────────────────────
   Lazy memoized model loaders (asr.py, translation.py, tts.py)
   Each returns (returned model(s), new global state, loads performed).
   ──────────────────────────────────────────────────────────────── -/

/-- get_whisper_model: load into the global on first use. -/
def getWhisperModel (α : Type) (st : Option α) (fresh : α) : α × Option α × Nat :=
  match st with
  | none => (fresh, some fresh, 1)
  | some m => (m, some m, 0)

/-- get_indic_model: load into the global on first use. -/
def getIndicModel (α : Type) (st : Option α) (fresh : α) : α × Option α × Nat :=
  match st with
  | none => (fresh, some fresh, 1)
  | some m => (m, some m, 0)

/-- get_nllb_pipeline: load (and quantize) into the global on first use. -/
def getNllbPipeline (α : Type) (st : Option α) (fresh : α) : α × Option α × Nat :=
  match st with
  | none => (fresh, some fresh, 1)
  | some m => (m, some m, 0)

/-- load_parler_tts: three globals guarded by the first one; all three are
assigned (and pad tokens fixed) only in the first-load branch. -/
def loadParlerTts (α β : Type) (st : Option α × Option β × Option β)
    (freshModel : α) (freshTok freshDescTok : β) :
    (Option α × Option β × Option β) × (Option α × Option β × Option β) × Nat :=
  match st.1 with
  | none =>
    let st2 := (some freshModel, some freshTok, some freshDescTok)
    (st2, st2, 1)
  | some _ => (st, st, 0)

/-- get_tts_engine: initialize pyttsx3 into the global on first use. -/
def getTtsEngine (α : Type) (st : Option α) (fresh : α) : α × Option α × Nat :=
  match st with
  | none => (fresh, some fresh, 1)
  | some m => (m, some m, 0)

/- ────────────────────────────────────────────────────────────────
   run_pipeline.py — the JSON evaluation log
   ──────────────────────────────────────────────────────────────── -/

/-- JSON values. -/
inductive Json
  | null
  | bool (b : Bool)
  | num (q : ℚ)
  | str (s : String)
  | arr (xs : List Json)
  | obj (fields : List (String × Json))

/-- The prior state of the log file: none = absent, some none = present
but invalid JSON, some (some v) = parses as v. -/
def LogFile : Type := Option (Option Json)

/-- The read-modify step of the log update in run_voice2voice_evaluation: a
missing file, a JSONDecodeError, or a non-list value all reset to []. -/
def readExistingLog : LogFile → List Json
  | none => []
  | some none => []
  | some (some (Json.arr xs)) => xs
  | some (some (Json.null)) => []
  | some (some (Json.bool _)) => []
  | some (some (Json.num _)) => []
  | some (some (Json.str _)) => []
  | some (some (Json.obj _)) => []

/-- The content written back: the prior entries with the new evaluation
entry appended. -/
def appendLog (file : LogFile) (entry : Json) : Json :=
  Json.arr (readExistingLog file ++ [entry])

/- ────────────────────────────────────────────────────────────────
   run_pipeline.py — the five-phase pipeline
   ──────────────────────────────────────────────────────────────── -/

/-- The five phases, in source order. -/
inductive PhaseEv
  | record
  | asr
  | targetSel
  | translate
  | ttsPhase
deriving DecidableEq, Repr

/-- Oracles for everything outside the control flow owned by the repository:
model outputs and audio/keyboard input. -/
structure PipelineOracles where
  detectedCode : String
  indicModel : String → String
  whisperText : String
  spokenTarget : Nat → String
  typedTarget : String
  nllbModel : String → String → String → Except String String

/-- Observable outcome of one run_voice2voice_evaluation call. -/
structure RunResult where
  transcription : String
  engine : AsrEngine
  target : Option String × Option String
  translated : Option String
  ttsAction : TtsAction
  phases : List PhaseEv
  nllbCalls : List (String × String × String)

/-- Phase sequence of run_voice2voice_evaluation: record, transcribe
(detection + routing), select target language, translate (src_lang_code
passed as None), classify the target as indian/international and play
TTS. Straight-line: each phase appends its event unconditionally. -/
def runVoice2voiceEvaluation (o : PipelineOracles) : RunResult :=
  let tr1 := [PhaseEv.record]
  let asrOut := transcribeAudio o.detectedCode o.indicModel o.whisperText
  let tr2 := tr1 ++ [PhaseEv.asr]
  let tgt := getTargetLanguage o.spokenTarget o.typedTarget
  let tr3 := tr2 ++ [PhaseEv.targetSel]
  let trans := translateWithNllb o.nllbModel (some asrOut.1) none tgt.1.1
  let tr4 := tr3 ++ [PhaseEv.translate]
  let langType :=
    match tgt.1.1 with
    | some c => if keyMem INDIAN_LANG_MAP c then "indian" else "international"
    | none => "international"
  let tts := playTtsOutput trans.output langType tgt.1.1
  let tr5 := tr4 ++ [PhaseEv.ttsPhase]
  { transcription := asrOut.1,
    engine := asrOut.2,
    target := tgt.1,
    translated := trans.output,
    ttsAction := tts,
    phases := tr5,
    nllbCalls := trans.calls }

/- ────────────────────────────────────────────────────────────────
   Shared lemmas
   ──────────────────────────────────────────────────────────────── -/

/-- The winner of pickBest is the initial accumulator or a candidate. -/
theorem pickBest_mem : ∀ (poss : List (List Char)) (word : List Char)
    (acc : Option (List Char)) (y : List Char),
    pickBest word poss acc = some y → acc = some y ∨ y ∈ poss := by
  intro poss
  induction poss with
  | nil =>
    intro word acc y h
    exact Or.inl h
  | cons x rest ih =>
    intro word acc y h
    cases acc with
    | none =>
      rcases ih word (some x) y (by simpa [pickBest] using h) with h1 | h1
      · exact Or.inr ((Option.some.inj h1) ▸ List.mem_cons_self x rest)
      · exact Or.inr (List.mem_cons_of_mem _ h1)
    | some b =>
      rw [pickBest] at h
      split at h
      · rcases ih word (some x) y h with h1 | h1
        · exact Or.inr ((Option.some.inj h1) ▸ List.mem_cons_self x rest)
        · exact Or.inr (List.mem_cons_of_mem _ h1)
      · rcases ih word (some b) y h with h1 | h1
        · exact Or.inl h1
        · exact Or.inr (List.mem_cons_of_mem _ h1)

/-- Association-list lookup misses every non-key. -/
theorem lookupEqNoneOfNotMem : ∀ (l : List (String × String)) (s : String),
    s ∉ l.map Prod.fst → l.lookup s = none := by
  intro l
  induction l with
  | nil =>
    intro s _
    rfl
  | cons p rest ih =>
    intro s h
    simp only [List.map_cons, List.mem_cons, not_or] at h
    have hne : (s == p.1) = false := by
      simp only [beq_eq_false_iff_ne, ne_eq]
      exact h.1
    cases p with
    | mk k v =>
      simp only [List.lookup]
      simp only at hne
      rw [hne]
      exact ih s h.2

/-- Every NLLB call recorded by translate_with_nllb carries exactly the
mapped source and target codes. -/
theorem translateCallArgs (model : String → String → String → Except String String)
    (text : Option String) (src tgt : Option String)
    (c : String × String × String)
    (hc : c ∈ (translateWithNllb model text src tgt).calls) :
    c.2.1 = nllbGet src ∧ c.2.2 = nllbGet tgt := by
  cases text with
  | none => simp [translateWithNllb] at hc
  | some t =>
    by_cases he : (t = "" || pyStripS t = "") = true
    · simp [translateWithNllb, he] at hc
    · cases hm : model t (nllbGet src) (nllbGet tgt) with
      | ok out =>
        simp [translateWithNllb, he, hm] at hc
        subst hc
        exact ⟨rfl, rfl⟩
      | error e =>
        simp [translateWithNllb, he, hm] at hc
        subst hc
        exact ⟨rfl, rfl⟩

/- ────────────────────────────────────────────────────────────────
   Claims
   ──────────────────────────────────────────────────────────────── -/

/-- C1: the evaluation-log update of run_voice2voice_evaluation. If the
log file previously parsed as a JSON list L, the file is rewritten as L
with exactly the new entry appended and every prior element unchanged; if
the file was absent, invalid JSON, or a non-list JSON value, the file is
rewritten as the one-element list of the new entry. -/
theorem C1_log_append :
    (∀ (L : List Json) (e : Json),
      appendLog (some (some (Json.arr L))) e = Json.arr (L ++ [e])) ∧
    (∀ (f : LogFile) (e : Json),
      (∀ L, f ≠ some (some (Json.arr L))) → appendLog f e = Json.arr [e]) := by
  constructor
  · intro L e
    rfl
  · intro f e h
    cases f with
    | none => rfl
    | some g =>
      cases g with
      | none => rfl
      | some v =>
        cases v with
        | null => rfl
        | bool b => rfl
        | num q => rfl
        | str s => rfl
        | arr xs => exact absurd rfl (h xs)
        | obj fs => rfl

/-- C1 witness: an absent log file becomes the one-element list. -/
theorem C1_log_append_witness :
    appendLog none (Json.str "entry") = Json.arr [Json.str "entry"] :=
  C1_log_append.2 none (Json.str "entry") (fun _ h => Option.noConfusion h)

/-- C2: every run executes the five phases exactly once, in the fixed
order record, ASR, target-language selection, translation, TTS, for every
combination of oracle outcomes — so no phase is retried or skipped based
on earlier results, and later phases still run when earlier ones fail or
return None. -/
theorem C2_five_phases (o : PipelineOracles) :
    (runVoice2voiceEvaluation o).phases =
      [PhaseEv.record, PhaseEv.asr, PhaseEv.targetSel, PhaseEv.translate, PhaseEv.ttsPhase] :=
  rfl

/-- C4: translate_with_nllb returns None on missing input, returns None on
empty or whitespace-only input without invoking the model, returns None
when the model call fails, and otherwise returns the translation from the model;
being total, it never propagates an exception. -/
theorem C4_translate_errors :
    (∀ model src tgt,
      translateWithNllb model none src tgt = { output := none, calls := [] }) ∧
    (∀ model t src tgt, pyStripS t = "" →
      translateWithNllb model (some t) src tgt = { output := none, calls := [] }) ∧
    (∀ model t src tgt e, model t (nllbGet src) (nllbGet tgt) = Except.error e →
      (translateWithNllb model (some t) src tgt).output = none) ∧
    (∀ model t src tgt out, pyStripS t ≠ "" →
      model t (nllbGet src) (nllbGet tgt) = Except.ok out →
      (translateWithNllb model (some t) src tgt).output = some out) := by
  refine ⟨fun model src tgt => rfl, ?_, ?_, ?_⟩
  · intro model t src tgt hs
    have ht : (t = "" || pyStripS t = "") = true := by
      simp [hs]
    simp [translateWithNllb, ht]
  · intro model t src tgt e hm
    by_cases he : (t = "" || pyStripS t = "") = true
    · simp [translateWithNllb, he]
    · simp [translateWithNllb, he, hm]
  · intro model t src tgt out hs hm
    have ht : t ≠ "" := by
      intro h0
      exact hs (by rw [h0]; rfl)
    have he : (t = "" || pyStripS t = "") = false := by
      simp [ht, hs]
    simp [translateWithNllb, he, hm]

/-- C4 witness: whitespace-only input is skipped without a model call, and
the text of a successful model call is returned. -/
theorem C4_translate_errors_witness :
    translateWithNllb (fun t _ _ => Except.ok t) (some "   ") none none
      = { output := none, calls := [] } ∧
    (translateWithNllb (fun _ _ _ => Except.ok "bonjour") (some "hello") none none).output
      = some "bonjour" :=
  ⟨C4_translate_errors.2.1 (fun t _ _ => Except.ok t) "   " none none (by decide),
   C4_translate_errors.2.2.2 (fun _ _ _ => Except.ok "bonjour") "hello" none none
     "bonjour" (by decide) rfl⟩

/-- C6: transcribe_audio routes on the Whisper-detected code: it uses
IndicConformer exactly when the code is one of the 22 keys of
INDIAN_LANG_MAP and Whisper otherwise, and detect_input_language_whisper
reports is_indian exactly for those keys. -/
theorem C6_asr_routing :
    (∀ (code : String) (indicModel : String → String) (whisperText : String),
      (transcribeAudio code indicModel whisperText).2 = AsrEngine.indicConformer ↔
        code ∈ INDIAN_LANG_MAP.map Prod.fst) ∧
    (∀ code : String,
      (detectInputLanguageWhisper code).2.2 = true ↔ code ∈ INDIAN_LANG_MAP.map Prod.fst) ∧
    INDIAN_LANG_MAP.length = 22 := by
  have hdet : ∀ code : String,
      (detectInputLanguageWhisper code).2.2 = true ↔ code ∈ INDIAN_LANG_MAP.map Prod.fst := by
    intro code
    simp [detectInputLanguageWhisper, keyMem, List.elem_iff]
  refine ⟨?_, hdet, rfl⟩
  intro code indicModel whisperText
  by_cases h : (detectInputLanguageWhisper code).2.2 = true
  · rw [← hdet code]
    simp [transcribeAudio, h]
  · rw [← hdet code]
    simp only [transcribeAudio]
    rw [Bool.not_eq_true] at h
    simp [h]

/-- C6 witness: "hi" routes to IndicConformer, "en" routes to Whisper. -/
theorem C6_asr_routing_witness :
    (transcribeAudio "hi" (fun _ => "नमस्ते") "hello").2 = AsrEngine.indicConformer ∧
    ¬ (transcribeAudio "en" (fun _ => "नमस्ते") "hello").2 = AsrEngine.indicConformer :=
  ⟨(C6_asr_routing.1 "hi" (fun _ => "नमस्ते") "hello").mpr (by decide),
   fun h => by
     have := (C6_asr_routing.1 "en" (fun _ => "नमस्ते") "hello").mp h
     simp [INDIAN_LANG_MAP] at this⟩

/-- C7: each of the five model loaders is lazily memoized through its
mutable global(s): from an empty global the call performs exactly one
load and caches the result; from a populated global it returns the cached
reference with zero loads regardless of what a fresh load would produce,
so a second call is equivalent to the first. -/
theorem C7_lazy_memoization :
    (∀ (α : Type) (f₁ f₂ : α),
      getWhisperModel α none f₁ = (f₁, some f₁, 1) ∧
      getWhisperModel α (some f₁) f₂ = (f₁, some f₁, 0)) ∧
    (∀ (α : Type) (f₁ f₂ : α),
      getIndicModel α none f₁ = (f₁, some f₁, 1) ∧
      getIndicModel α (some f₁) f₂ = (f₁, some f₁, 0)) ∧
    (∀ (α : Type) (f₁ f₂ : α),
      getNllbPipeline α none f₁ = (f₁, some f₁, 1) ∧
      getNllbPipeline α (some f₁) f₂ = (f₁, some f₁, 0)) ∧
    (∀ (α β : Type) (m m₂ : α) (t d t₂ d₂ : β) (tok dtok : Option β),
      loadParlerTts α β (none, none, none) m t d =
        ((some m, some t, some d), (some m, some t, some d), 1) ∧
      loadParlerTts α β (some m, tok, dtok) m₂ t₂ d₂ =
        ((some m, tok, dtok), (some m, tok, dtok), 0)) ∧
    (∀ (α : Type) (f₁ f₂ : α),
      getTtsEngine α none f₁ = (f₁, some f₁, 1) ∧
      getTtsEngine α (some f₁) f₂ = (f₁, some f₁, 0)) :=
  ⟨fun _ _ _ => ⟨rfl, rfl⟩,
   fun _ _ _ => ⟨rfl, rfl⟩,
   fun _ _ _ => ⟨rfl, rfl⟩,
   fun _ _ _ _ _ _ _ _ _ _ => ⟨rfl, rfl⟩,
   fun _ _ _ => ⟨rfl, rfl⟩⟩

/-- C8: record_audio writes exactly one file: the given filename holding
the flattened recording passed through bandpass_filter with the fixed
parameters lowcut 80, highcut 7900, order 4 at the given rate; the raw
samples are never written, and the given filename is returned. -/
theorem C8_record_filters_before_save :
    ∀ (design : Nat → ℚ → ℚ → List ℚ × List ℚ) (recorded : List ℚ)
      (fs : ℚ) (filename : String) (playback : Bool),
      (recordAudio design recorded fs filename playback).writes =
        [(filename, bandpassFilter design recorded 80 7900 fs 4)] ∧
      (recordAudio design recorded fs filename playback).ret = filename :=
  fun _ _ _ _ _ => ⟨rfl, rfl⟩

/-- C9: the pipeline passes src_lang_code = None to translation, None maps
through the NLLB_LANG_CODE_MAP.get default (as does any absent key), so the
source-language argument handed to the NLLB model is "eng_Latn" on every
run, identically across runs whatever language the ASR phase detected. -/
theorem C9_source_lang_constant :
    (nllbGet none = "eng_Latn") ∧
    (∀ s : String, s ∉ NLLB_LANG_CODE_MAP.map Prod.fst → nllbGet (some s) = "eng_Latn") ∧
    (∀ (o : PipelineOracles) (c : String × String × String),
      c ∈ (runVoice2voiceEvaluation o).nllbCalls → c.2.1 = "eng_Latn") ∧
    (∀ (o₁ o₂ : PipelineOracles) (c₁ c₂ : String × String × String),
      c₁ ∈ (runVoice2voiceEvaluation o₁).nllbCalls →
      c₂ ∈ (runVoice2voiceEvaluation o₂).nllbCalls → c₁.2.1 = c₂.2.1) := by
  have hrun : ∀ (o : PipelineOracles) (c : String × String × String),
      c ∈ (runVoice2voiceEvaluation o).nllbCalls → c.2.1 = "eng_Latn" := by
    intro o c hc
    have hc2 : c ∈ (translateWithNllb o.nllbModel
        (some (transcribeAudio o.detectedCode o.indicModel o.whisperText).1) none
        (getTargetLanguage o.spokenTarget o.typedTarget).1.1).calls := hc
    exact (translateCallArgs _ _ _ _ _ hc2).1
  refine ⟨rfl, ?_, hrun, ?_⟩
  · intro s hs
    simp [nllbGet, lookupD, lookupEqNoneOfNotMem NLLB_LANG_CODE_MAP s hs]
  · intro o₁ o₂ c₁ c₂ h₁ h₂
    rw [hrun o₁ c₁ h₁, hrun o₂ c₂ h₂]

/-- Concrete oracles for the C9 witness: English speech, a spoken target
of "hindi", and an echoing NLLB model. -/
def witnessOracles : PipelineOracles :=
  { detectedCode := "en",
    indicModel := fun _ => "",
    whisperText := "hello",
    spokenTarget := fun _ => "hindi",
    typedTarget := "",
    nllbModel := fun t _ _ => Except.ok t }

/-- C9 witness: the single NLLB call of a concrete run carries "eng_Latn". -/
theorem C9_source_lang_constant_witness :
    (("hello", "eng_Latn", "hin_Deva") : String × String × String).2.1 = "eng_Latn" :=
  C9_source_lang_constant.2.2.1 witnessOracles ("hello", "eng_Latn", "hin_Deva")
    (by set_option maxRecDepth 1000000 in decide)

/-- C10: every code in the range of SUPPORTED_LANGUAGES is a key of
NLLB_LANG_CODE_MAP, so for a successfully selected target language the
call to the NLLB model carries the own map entry of that language as target
(never the "eng_Latn" fallback path). -/
theorem C10_target_codes_covered :
    (∀ p ∈ SUPPORTED_LANGUAGES, p.2 ∈ NLLB_LANG_CODE_MAP.map Prod.fst) ∧
    (∀ p ∈ SUPPORTED_LANGUAGES,
      ∀ (model : String → String → String → Except String String)
        (text : Option String) (src : Option String) (c : String × String × String),
        c ∈ (translateWithNllb model text src (some p.2)).calls →
        some c.2.2 = NLLB_LANG_CODE_MAP.lookup p.2) := by
  have hsome : ∀ p ∈ SUPPORTED_LANGUAGES, (NLLB_LANG_CODE_MAP.lookup p.2).isSome = true := by
    decide
  constructor
  · decide
  · intro p hp model text src c hc
    have harg := (translateCallArgs model text src (some p.2) c hc).2
    have hs := hsome p hp
    cases hl : NLLB_LANG_CODE_MAP.lookup p.2 with
    | none => rw [hl] at hs; simp at hs
    | some v =>
      rw [harg]
      simp [nllbGet, lookupD, hl]

/-- C10 witness: target "hi" (spoken name "hindi") reaches the model as
its own entry "hin_Deva". -/
theorem C10_target_codes_covered_witness :
    some (("hello", "eng_Latn", "hin_Deva") : String × String × String).2.2 =
      NLLB_LANG_CODE_MAP.lookup "hi" :=
  C10_target_codes_covered.2 ("hindi", "hi") (by decide)
    (fun t _ _ => Except.ok t) (some "hello") none ("hello", "eng_Latn", "hin_Deva")
    (by decide)

/-- Lookup of the own key of each table row yields its value (keys are nodup). -/
theorem lookupKeys : ∀ p ∈ SUPPORTED_LANGUAGES, SUPPORTED_LANGUAGES.lookup p.1 = some p.2 := by
  decide

set_option maxRecDepth 2000000 in
/-- C5: get_language_code normalizes (lowercase, delete "language" and
"lang", strip) and takes the single closest supported name at cutoff 0.5:
every exact key of SUPPORTED_LANGUAGES maps to its own code and name, and
every input either fails to (None, None) or yields some supported pair
(code, name). -/
theorem C5_language_matching :
    (∀ p ∈ SUPPORTED_LANGUAGES, getLanguageCode p.1 = (some p.2, some p.1)) ∧
    (∀ s : String, getLanguageCode s = (none, none) ∨
      ∃ p ∈ SUPPORTED_LANGUAGES, getLanguageCode s = (some p.2, some p.1)) := by
  constructor
  · decide
  · intro s
    cases h : getCloseMatches1 (normalizeLanguageInput s)
        (SUPPORTED_LANGUAGES.map (fun p => p.1.toList)) (1, 2) with
    | none =>
      left
      simp only [getLanguageCode, h]
    | some nameChars =>
      right
      have hpb : pickBest (normalizeLanguageInput s)
          ((SUPPORTED_LANGUAGES.map (fun p => p.1.toList)).filter
            (fun x => fracLe (1, 2) (ratioPair x (normalizeLanguageInput s)))) none =
          some nameChars := h
      rcases pickBest_mem _ _ _ _ hpb with h1 | h1
      · exact Option.noConfusion h1
      · have h2 : nameChars ∈ SUPPORTED_LANGUAGES.map (fun p => p.1.toList) :=
          List.mem_of_mem_filter h1
        rw [List.mem_map] at h2
        obtain ⟨p, hp, hmk⟩ := h2
        refine ⟨p, hp, ?_⟩
        simp only [getLanguageCode, h]
        rw [← hmk]
        have hsm : String.mk p.1.toList = p.1 := rfl
        rw [hsm, lookupKeys p hp]

/-- C5 witness: the exact key "hindi" maps to ("hi", "hindi"). -/
theorem C5_language_matching_witness :
    getLanguageCode "hindi" = (some "hi", some "hindi") :=
  C5_language_matching.1 ("hindi", "hi") (by decide)

set_option maxRecDepth 1000000 in
/-- C3 counterexample: target-language selection DOES retry after a
failure. With first spoken attempt "qqqq" (matching no supported name,
first conjunct) and second "hindi", detect_target_language_by_voice
records and recognizes a second time — two recordings are performed —
and returns the result of the second attempt. -/
theorem C3_no_retries_counterexample :
    getLanguageCode (pyStripS "qqqq") = (none, none) ∧
    detectTargetLanguageByVoice (fun i => if i = 0 then "qqqq" else "hindi") 2 =
      ((some "hi", some "hindi"), 2) := by
  decide

/-- Recording count of the voice-selection loop is bounded by the
remaining attempts. -/
theorem dtlbvLoopCount (spoken : Nat → String) :
    ∀ (r att : Nat), (dtlbvLoop spoken r att).2 ≤ att + r := by
  intro r
  induction r with
  | zero =>
    intro att
    simp [dtlbvLoop]
  | succ n ih =>
    intro att
    rw [dtlbvLoop]
    split
    · simp
    · have := ih (att + 1)
      omega

/-- Unfolding equation for one voice-selection attempt. -/
theorem dtlbvLoopSucc (spoken : Nat → String) (r att : Nat) :
    dtlbvLoop spoken (r + 1) att =
      if truthyOpt (getLanguageCode (pyStripS (spoken att))).1 then
        (getLanguageCode (pyStripS (spoken att)), att + 1)
      else dtlbvLoop spoken r (att + 1) :=
  rfl

/-- C3 amended: failures trigger no retries except in target-language
selection, where detect_target_language_by_voice makes up to 2 voice
attempts (stopping at the first success, so a success on attempt one is
never retried) and get_target_language falls back to one manual typed
attempt exactly when the voice attempts end without a code; translation
makes at most one model call per invocation. -/
theorem C3_no_retries_amended :
    (∀ spoken : Nat → String, (detectTargetLanguageByVoice spoken 2).2 ≤ 2) ∧
    (∀ spoken : Nat → String,
      truthyOpt (getLanguageCode (pyStripS (spoken 0))).1 = true →
      (detectTargetLanguageByVoice spoken 2).2 = 1) ∧
    (∀ (spoken : Nat → String) (typed : String),
      (getTargetLanguage spoken typed).2.2 = true ↔
        truthyOpt (detectTargetLanguageByVoice spoken 2).1.1 = false) ∧
    (∀ (model : String → String → String → Except String String)
      (text : Option String) (src tgt : Option String),
      (translateWithNllb model text src tgt).calls.length ≤ 1) := by
  refine ⟨?_, ?_, ?_, ?_⟩
  · intro spoken
    exact dtlbvLoopCount spoken 2 0
  · intro spoken h
    show (dtlbvLoop spoken (1 + 1) 0).2 = 1
    rw [dtlbvLoopSucc spoken 1 0, if_pos h]
  · intro spoken typed
    by_cases hb : truthyOpt (detectTargetLanguageByVoice spoken 2).1.1 = true
    · simp [getTargetLanguage, hb]
    · rw [Bool.not_eq_true] at hb
      simp [getTargetLanguage, hb]
  · intro model text src tgt
    cases text with
    | none => simp [translateWithNllb]
    | some t =>
      by_cases he : (t = "" || pyStripS t = "") = true
      · simp [translateWithNllb, he]
      · cases hm : model t (nllbGet src) (nllbGet tgt) with
        | ok out => simp [translateWithNllb, he, hm]
        | error e => simp [translateWithNllb, he, hm]

/-- C3 amended witness: a first-attempt success records exactly once. -/
theorem C3_no_retries_amended_witness :
    (detectTargetLanguageByVoice (fun _ => "hindi") 2).2 = 1 :=
  C3_no_retries_amended.2.1 (fun _ => "hindi")
    (by set_option maxRecDepth 1000000 in decide)
